import Mathlib

/-!
Shallow embedding of the deployment-detection core of `program_install.py`
(classes `WindowsUtils` and `ProgramInstaller`).

Modelling conventions:
* Machine state that Python mutates in place (`self.program_status`,
  `self.installation_log`) is passed explicitly as an `InstallerState` value.
* OS boundaries (the Windows registry, the filesystem walk, metadata
  extraction, process execution, the MSI database, the stdlib `re` and
  `fnmatch` engines) are modelled as explicit environment records whose fields
  are oracle functions; the repository's own logic is translated faithfully.
* Python `None` stored inside a `Dict[str, Any]` property map is represented by
  the empty string: every consumer in the source reads such values through
  truthiness tests, for which `None` and `""` are indistinguishable.
* Paths are lists of components; `pathToString` mirrors `str(Path)` rendering.
* Floats in the heuristic scorer are modelled as rationals.
-/

namespace ProgramInstall

/-- Python `str.lower()` restricted to the character-wise case map. -/
def lowerStr (s : String) : String := ⟨s.data.map Char.toLower⟩

/-- Does `n` occur at the head of `h`? -/
def prefixChars : List Char → List Char → Bool
  | [], _ => true
  | _ :: _, [] => false
  | c :: cs, d :: ds => c == d && prefixChars cs ds

/-- Does `n` occur contiguously anywhere inside `h`? -/
def infixChars (n : List Char) : List Char → Bool
  | [] => prefixChars n []
  | d :: ds => prefixChars n (d :: ds) || infixChars n ds

/-- Python `needle in haystack` substring test. -/
def pyIn (needle haystack : String) : Bool := infixChars needle.data haystack.data

/-- Python's default `str.strip()` whitespace set (ASCII part). -/
def isPySpace (c : Char) : Bool :=
  c == ' ' || c == '\t' || c == '\n' || c == '\r' || c == '\x0b' || c == '\x0c'

/-- Python `str.strip()` (whitespace at both ends). -/
def pyStrip (s : String) : String :=
  ⟨((s.data.dropWhile isPySpace).reverse.dropWhile isPySpace).reverse⟩

/-- Python `str.startswith(pat)`. -/
def pyStartsWith (s pat : String) : Bool := prefixChars pat.data s.data

/-- Python `str.endswith(pat)`. -/
def pyEndsWith (s pat : String) : Bool :=
  prefixChars pat.data.reverse s.data.reverse

/-- Replace every (leftmost, non-overlapping) occurrence of the non-empty
pattern `pat` by `rep`. -/
def replaceChars (pat rep : List Char) : List Char → List Char
  | [] => []
  | c :: cs =>
    if prefixChars pat (c :: cs) then
      rep ++ replaceChars pat rep (cs.drop (pat.length - 1))
    else c :: replaceChars pat rep cs
termination_by l => l.length
decreasing_by
  · simp only [List.length_drop, List.length_cons]; omega
  · simp only [List.length_cons]; omega

/-- Python `s.replace(pat, rep)` for a non-empty pattern. -/
def strReplace (s pat rep : String) : String :=
  match pat.data with
  | [] => s
  | p :: ps => ⟨replaceChars (p :: ps) rep.data s.data⟩

/-- Truthiness of a Python string. -/
def truthyS (s : String) : Bool := s != ""

/-- Truthiness of an optional Python string (`None` and `""` are falsy). -/
def truthyO (o : Option String) : Bool :=
  match o with
  | some s => s != ""
  | none => false

/-- `dict.get(k, d)` on a property map. -/
def pget (props : List (String × String)) (k d : String) : String :=
  match props.find? (fun kv => kv.1 == k) with
  | some kv => kv.2
  | none => d

/-- `dict.get(k)` on a property map, `none` when the key is absent. -/
def pgetOpt (props : List (String × String)) (k : String) : Option String :=
  match props.find? (fun kv => kv.1 == k) with
  | some kv => some kv.2
  | none => none

/-- `d[k] = v` on a property map (replace an existing key, else append). -/
def pset (props : List (String × String)) (k v : String) : List (String × String) :=
  if (props.find? (fun kv => kv.1 == k)).isSome then
    props.map (fun kv => if kv.1 == k then (k, v) else kv)
  else
    props ++ [(k, v)]

/-- First-binding association-list lookup (Python `dict` access). -/
def alookup {α : Type} (l : List (String × α)) (k : String) : Option α :=
  match l.find? (fun kv => kv.1 == k) with
  | some kv => some kv.2
  | none => none

/-- Update the value bound to an existing key (Python attribute mutation on a
dict entry); keys that are absent stay absent. -/
def aupdate {α : Type} (l : List (String × α)) (k : String) (f : α → α) :
    List (String × α) :=
  l.map (fun kv => if kv.1 == k then (kv.1, f kv.2) else kv)

/-- `d[k] = v`, replacing an existing binding or appending a new one. -/
def aset {α : Type} (l : List (String × α)) (k : String) (v : α) :
    List (String × α) :=
  if (l.find? (fun kv => kv.1 == k)).isSome then
    l.map (fun kv => if kv.1 == k then (kv.1, v) else kv)
  else
    l ++ [(k, v)]

/-- `del d[k]` guarded by `k in d` (removes every binding of `k`). -/
def aerase {α : Type} (l : List (String × α)) (k : String) : List (String × α) :=
  l.filter (fun kv => kv.1 != k)

/-- `str(Path)` on a component list (Windows separator). -/
def pathToString (p : List String) : String := String.intercalate "\\" p

/-- Scan a reversed character list for its first `'.'`; returns the characters
before it and after it. -/
def splitFirstDot : List Char → Option (List Char × List Char)
  | [] => none
  | c :: cs =>
    if c = '.' then some ([], cs)
    else (splitFirstDot cs).map (fun p => (c :: p.1, p.2))

/-- `PurePath.suffix`: the final `"."`-extension of a file name, empty when the
last dot is the first or the last character or absent. -/
def fileSuffix (name : String) : String :=
  match splitFirstDot name.data.reverse with
  | none => ""
  | some (ext, rest) => if ext = [] ∨ rest = [] then "" else ⟨'.' :: ext.reverse⟩

/-- Is `c` a hexadecimal digit (either case)? -/
def isHexDigit (c : Char) : Bool :=
  ('0' ≤ c && c ≤ '9') || ('a' ≤ c && c ≤ 'f') || ('A' ≤ c && c ≤ 'F')

/-- Try to read exactly `n` hexadecimal digits from the front of `cs`. -/
def takeHex : Nat → List Char → Option (List Char × List Char)
  | 0, cs => some ([], cs)
  | _ + 1, [] => none
  | n + 1, c :: cs =>
    if isHexDigit c then (takeHex n cs).map (fun p => (c :: p.1, p.2)) else none

/-- Try to match a brace-wrapped GUID (`8-4-4-4-12` hex digits) at the head of
`cs`; on success return its characters. -/
def guidAt (cs : List Char) : Option (List Char) :=
  match cs with
  | '\x7b' :: rest =>
    match takeHex 8 rest with
    | some (h1, '-' :: r1) =>
      match takeHex 4 r1 with
      | some (h2, '-' :: r2) =>
        match takeHex 4 r2 with
        | some (h3, '-' :: r3) =>
          match takeHex 4 r3 with
          | some (h4, '-' :: r4) =>
            match takeHex 12 r4 with
            | some (h5, '\x7d' :: _) =>
              some ('\x7b' :: h1 ++ '-' :: h2 ++ '-' :: h3 ++ '-' :: h4 ++
                '-' :: h5 ++ ['\x7d'])
            | _ => none
          | _ => none
        | _ => none
      | _ => none
    | _ => none
  | _ => none

/-- `re.search` for the product-code pattern
`\x7b[0-9A-F]{8}(-[0-9A-F]{4}){3}-[0-9A-F]{12}\x7d` (case-insensitive):
the first GUID-shaped token in `cs`. -/
def findGuidChars : List Char → Option (List Char)
  | [] => none
  | c :: cs =>
    match guidAt (c :: cs) with
    | some g => some g
    | none => findGuidChars cs

/-- First brace-wrapped GUID token occurring in `s`, with its braces. -/
def findGuid (s : String) : Option String :=
  (findGuidChars s.data).map (fun g => ⟨g⟩)

-- --- Data structures mirroring the Python dataclasses and config dicts ---

/-- One entry of a `check_method.keys` list (a registry detection rule). -/
structure RegRule where
  path : Option String := none
  hive : String := "HKLM"
  matchValue : Option String := none
  matchPattern : Option String := none
  checkExistence : Bool := false
  getValue : Option String := none
  deriving DecidableEq, Repr

/-- Oracle view of the Windows registry plus the stdlib `re` engine consumed by
`WindowsUtils.check_registry` (`winreg.OpenKey`, `QueryValueEx`, `EnumKey`,
`re.match(..., re.IGNORECASE)`). -/
structure RegEnv where
  keyExists : String → String → Bool
  readString : String → String → String → Option String
  subkeys : String → String → List String
  reMatch : String → String → Bool

/-- The `identity` block of one program configuration. -/
structure Identity where
  expectedProductNames : List String := []
  expectedDescriptions : List String := []
  installerPatterns : List String := []
  deriving DecidableEq, Repr

/-- One `PROGRAM_CONFIG` entry (flattened to the fields the core reads). -/
structure ProgConfig where
  displayName : String := ""
  identity : Identity := {}
  checkKeys : List RegRule := []
  installCommands : List (String × String) := []
  deriving DecidableEq, Repr

/-- Dataclass `FoundInstallerInfo`. -/
structure FoundInstallerInfo where
  path : List String
  fileProperties : List (String × String) := []
  installerType : String := ".unknown"
  deriving DecidableEq, Repr

/-- Dataclass `ProgramStatus` (timestamps abstracted to naturals). -/
structure ProgramStatus where
  programKey : String
  displayName : String
  config : ProgConfig
  foundInstaller : Option FoundInstallerInfo := none
  isInstalled : Option Bool := none
  lastChecked : Option Nat := none
  lastInstalledVersion : Option String := none
  installError : Option String := none
  deriving DecidableEq, Repr

/-- One persisted installation-log record (dict fields; `none` = key absent). -/
structure LogEntry where
  programKey : Option String := none
  name : Option String := none
  timestamp : Option String := none
  installerPath : Option String := none
  installerType : Option String := none
  uninstallString : Option String := none
  installLocation : Option String := none
  displayVersion : Option String := none
  installerProductVersion : Option String := none
  installerFileVersion : Option String := none
  productCode : Option String := none
  deriving DecidableEq, Repr

/-- The mutable state of a `ProgramInstaller` instance that the orchestration
methods read and write. -/
structure InstallerState where
  programStatus : List (String × ProgramStatus) := []
  installationLog : List (String × LogEntry) := []
  deriving DecidableEq, Repr

/-- `DETECTION_SETTINGS`. -/
structure DetectionSettings where
  excludeGenericNames : List String := []
  excludeByPropertySubstrings : List String := []
  excludeUninstallerHints : List String := []
  minFileSizeBytes : Nat := 0
  ignoreDirs : List String := []
  deriving DecidableEq, Repr

/-- Outcome of `subprocess.run` for one command. -/
inductive ProcResult where
  | completed (code : Int) (stdout stderr : String)
  | timedOut
  | notFound
  | excd (msg : String)
  deriving DecidableEq, Repr

/-- Environment for the orchestrators: registry, MSI installation check via
COM, process execution, and the wall clock. -/
structure SysEnv where
  reg : RegEnv
  msiInstalled : String → Bool
  proc : String → ProcResult
  now : Nat

-- --- WindowsUtils ---

/-- `WindowsUtils.run_command`: blocking process execution; exit codes 0, 3010
and 1641 count as a successful run, a timeout or launch failure maps to a
sentinel code. Returns `(ran_ok, returncode, stdout, stderr)`. -/
def run_command (r : ProcResult) : Bool × Int × String × String :=
  match r with
  | .completed code o e =>
    (code == 0 || code == 3010 || code == 1641, code, pyStrip o, pyStrip e)
  | .timedOut => (false, -1, "", "TimeoutExpired")
  | .notFound => (false, -2, "", "FileNotFoundError")
  | .excd m => (false, -3, "", m)

/-- `WindowsUtils._reg_read_string`: `None` when no value name is given or the
value is missing; otherwise the stored string, stripped. -/
def _reg_read_string (env : RegEnv) (hive path : String)
    (valueName : Option String) : Option String :=
  match valueName with
  | none => none
  | some v => (env.readString hive path v).map pyStrip

/-- `hkey_map.get(rule.get("hive", "HKLM"), HKEY_LOCAL_MACHINE)`. -/
def hiveNorm (s : String) : String := if s == "HKCU" then "HKCU" else "HKLM"

/-- Evaluation of the subkey-iteration loop of rule type 2 of
`WindowsUtils.check_registry`: fold `(found_globally, first_found_version)`
over the subkeys of `path`. -/
def subkeyScan (env : RegEnv) (hive path matchValue : String)
    (matchPattern : String) (getValue : Option String) :
    List String → Bool × Option String → Bool × Option String
  | [], acc => acc
  | name :: rest, acc =>
    let subPath := path ++ "\\" ++ name
    let valueToMatch := _reg_read_string env hive subPath (some matchValue)
    let acc' :=
      match valueToMatch with
      | some s =>
        if s != "" && env.reMatch matchPattern s then
          let foundVersion := _reg_read_string env hive subPath getValue
          let first :=
            match foundVersion with
            | some v => if v != "" && acc.2 == none then some v else acc.2
            | none => acc.2
          (true, first)
        else acc
      | none => acc
    subkeyScan env hive path matchValue matchPattern getValue rest acc'

/-- Evaluation of one rule of `WindowsUtils.check_registry`:
`some v` when the rule establishes presence with version `v`,
`none` when the rule fails (missing path/value, no match, invalid rule). -/
def evalRule (env : RegEnv) (rule : RegRule) : Option (Option String) :=
  match rule.path with
  | none => none
  | some p =>
    if p == "" then none
    else
      let hive := hiveNorm rule.hive
      if rule.checkExistence then
        if env.keyExists hive p then
          let foundVersion := _reg_read_string env hive p rule.getValue
          some (match foundVersion with
            | some v => if v != "" then some v else none
            | none => none)
        else none
      else if truthyO rule.matchValue && truthyO rule.matchPattern then
        if env.keyExists hive p then
          let res := subkeyScan env hive p (rule.matchValue.getD "")
            (rule.matchPattern.getD "") rule.getValue
            (env.subkeys hive p) (false, none)
          if res.1 then some res.2 else none
        else none
      else if truthyO rule.getValue then
        match _reg_read_string env hive p rule.getValue with
        | some v => some (some v)
        | none => none
      else none

/-- `WindowsUtils.check_registry`: rules in declaration order, returning at the
first rule that establishes presence, `(false, none)` when none does. -/
def check_registry (env : RegEnv) : List RegRule → Bool × Option String
  | [] => (false, none)
  | rule :: rest =>
    match evalRule env rule with
    | some v => (true, v)
    | none => check_registry env rest

-- --- Heuristic scorer ---

/-- `info.path.name`: the final path component. -/
def fileName (path : List String) : String := path.getLastD ""

/-- The un-clamped score accumulated by
`ProgramInstaller._score_potential_installer` before normalisation.
`sizeBytes` is the `info.path.stat().st_size` oracle (`none` = stat failure). -/
def _score_raw (settings : DetectionSettings) (sizeBytes : Option Nat)
    (info : FoundInstallerInfo) : ℚ :=
  let base : ℚ := 3/10
  let filenameLower := lowerStr (fileName info.path)
  let props := info.fileProperties
  if info.installerType == ".msi" then
    let s1 := base + 3/10
    let productName := lowerStr (pget props "ProductName" "")
    let s2 :=
      if ["patch", "update", "hotfix", "security update"].any
          (fun p => pyIn p productName) then s1 - 4/10 else s1
    let s3 :=
      if ["runtime", "redist", "merge module", "driver"].any
          (fun p => pyIn p productName) then s2 - 5/10 else s2
    if productName != "" &&
        !(["install", "setup", "package"].any (fun g => pyIn g productName))
    then s3 + 1/10 else s3
  else if info.installerType == ".exe" then
    let instKw := ["setup", "install", "installer", "wizard", "web", "online"]
    let uninstKw := settings.excludeUninstallerHints
    let s1 :=
      if instKw.any (fun k => pyIn k filenameLower) then base + 25/100 else base
    let s2 :=
      if uninstKw.any (fun k => pyIn k filenameLower) then s1 - 35/100 else s1
    let s3 :=
      match sizeBytes with
      | none => s2 - 1/10
      | some n =>
        let sizeMb : ℚ := (n : ℚ) / (1024 * 1024)
        if sizeMb > 100 then s2 + 15/100
        else if sizeMb > 10 then s2 + 1/10
        else if sizeMb < (settings.minFileSizeBytes : ℚ) / (1024 * 1024) then
          s2 - 15/100
        else s2
    if props.isEmpty then s3
    else
      let prodName := lowerStr (pget props "ProductName" "")
      let fileDesc := lowerStr (pget props "FileDescription" "")
      let compName := lowerStr (pget props "CompanyName" "")
      let t1 :=
        if prodName != "" &&
            !(["install", "setup", "package", "wizard"].any
              (fun g => pyIn g prodName)) then s3 + 15/100 else s3
      let t2 :=
        if fileDesc != "" &&
            !(["install", "setup", "package", "wizard"].any
              (fun g => pyIn g fileDesc)) then t1 + 1/10 else t1
      let t3 :=
        if uninstKw.any (fun k => pyIn k prodName || pyIn k fileDesc) then
          t2 - 3/10 else t2
      if compName == "microsoft corporation" || compName == "" then
        t3 - 1/20 else t3
  else base

/-- `ProgramInstaller._score_potential_installer`: heuristic confidence that an
artifact is a genuine installer, clamped to `[0, 1]`. -/
def _score_potential_installer (settings : DetectionSettings)
    (sizeBytes : Option Nat) (info : FoundInstallerInfo) : ℚ :=
  max 0 (min (_score_raw settings sizeBytes info) 1)

-- --- Directory scanner ---

/-- One node of the scanned filesystem tree. A file node carries the oracles
the scan consults for it: its size, the result of
`WindowsUtils.get_file_properties` (`none` = read failure), the result of
`WindowsUtils.get_msi_properties` (`[]` = read failure) and of
`WindowsUtils.get_msi_product_code`. -/
inductive FSEntry where
  | file (name : String) (size : Nat)
      (exeProps : Option (List (String × String)))
      (msiProps : List (String × String)) (msiProductCode : Option String)
  | dir (name : String) (entries : List FSEntry)

/-- `prop_vals_lower`: the lower-cased truthy values of the four identity
properties of a candidate file, the value set the exclusion filters are
matched against. -/
def propMatchValues (properties : List (String × String)) : List String :=
  ["ProductName", "FileDescription", "OriginalFilename",
    "CompanyName"].filterMap (fun k =>
      let v := pget properties k ""
      if v != "" then some (lowerStr v) else none)

/-- The per-file body of the scan loop of
`ProgramInstaller._find_potential_installers`: extension filter, size filter,
metadata read, and the three ordered property-based exclusion filters. -/
def processFile (s : DetectionSettings) (dirPath : List String) (name : String)
    (size : Nat) (exeProps : Option (List (String × String)))
    (msiProps : List (String × String)) (msiProductCode : Option String) :
    Option FoundInstallerInfo :=
  let filenameLower := lowerStr name
  let filePath := dirPath ++ [name]
  let extLower := lowerStr (fileSuffix name)
  if !(extLower == ".exe" || extLower == ".msi") then none
  else if size < s.minFileSizeBytes then none
  else
    let propsOpt : Option (List (String × String)) :=
      if extLower == ".msi" then
        if msiProps.isEmpty then none
        else
          let p1 := pset msiProps "MSI_ProductCode" (msiProductCode.getD "")
          let p2 := pset p1 "ProductVersion" (pget p1 "ProductVersion" "")
          some (pset p2 "MSI_ProductVersion" (pget p2 "ProductVersion" ""))
      else
        match exeProps with
        | none => none
        | some ps => if ps.isEmpty then none else some ps
    match propsOpt with
    | none => none
    | some properties =>
      let propVals := propMatchValues properties
      let excludeByProp := s.excludeByPropertySubstrings.map lowerStr
      let excludeGenerics := s.excludeGenericNames.map lowerStr
      let excludeUninstall := s.excludeUninstallerHints.map lowerStr
      if excludeByProp.any (fun f => propVals.any (fun v => pyIn f v)) then none
      else if excludeGenerics.any (fun f => propVals.any (fun v => pyIn f v))
        then none
      else
        let propVals2 := propVals ++ [filenameLower]
        if excludeUninstall.any (fun f => propVals2.any (fun v => pyIn f v))
          then none
        else some { path := filePath, fileProperties := properties,
                    installerType := extLower }

/-- The files yielded for one `os.walk` tuple: every file child of the current
directory, passed through `processFile`. -/
def filesAtLevel (s : DetectionSettings) (dirPath : List String)
    (entries : List FSEntry) : List FoundInstallerInfo :=
  entries.filterMap (fun e =>
    match e with
    | .file n sz ep mp mc => processFile s dirPath n sz ep mp mc
    | .dir _ _ => none)

mutual

/-- `os.walk(..., topdown=True)` over one directory level: the current
directory's files first, then the recursive descent. -/
def walkLevel (s : DetectionSettings) (dirPath : List String)
    (entries : List FSEntry) : List FoundInstallerInfo :=
  filesAtLevel s dirPath entries ++ walkSubdirs s dirPath entries
termination_by (sizeOf entries, 1)

/-- Descent into the subdirectories of the current level; a directory whose
lower-cased name is in the ignored set is pruned (its subtree never visited). -/
def walkSubdirs (s : DetectionSettings) (dirPath : List String) :
    List FSEntry → List FoundInstallerInfo
  | [] => []
  | .file _ _ _ _ _ :: rest => walkSubdirs s dirPath rest
  | .dir n es :: rest =>
    (if (s.ignoreDirs.map lowerStr).contains (lowerStr n) then []
     else walkLevel s (dirPath ++ [n]) es) ++ walkSubdirs s dirPath rest
termination_by l => (sizeOf l, 0)

end

/-- `ProgramInstaller._find_potential_installers`: recursive scan of the search
path for candidate installer files. -/
def _find_potential_installers (s : DetectionSettings)
    (searchPath : List String) (tree : List FSEntry) :
    List FoundInstallerInfo :=
  walkLevel s searchPath tree

-- --- Catalog matcher ---

/-- Stdlib boundaries consumed during matching and heuristic scoring:
`fnmatch.fnmatch(name, pattern)` and `Path.stat().st_size`. -/
structure MatchEnv where
  fnmatchFn : String → String → Bool
  statSize : List String → Option Nat

/-- The weighted signal score one candidate earns against one configuration
(`current_score` in `ProgramInstaller.scan_for_installers`): +1 for a filename
or original-filename glob-pattern match, +2 for an expected-description
substring, +3 for an expected-product-name substring. -/
def computeMatchScore (env : MatchEnv) (expNames expDescs patterns : List String)
    (info : FoundInstallerInfo) : Int :=
  let props := info.fileProperties
  let filenameLower := lowerStr (fileName info.path)
  let prodName := lowerStr (pget props "ProductName" "")
  let desc := lowerStr (pget props "FileDescription" "")
  let origName := lowerStr (pget props "OriginalFilename" "")
  let pattMatch :=
    if !patterns.isEmpty then
      patterns.any (fun pat => env.fnmatchFn filenameLower pat)
    else false
  let descMatch :=
    if !expDescs.isEmpty && desc != "" then
      expDescs.any (fun e => pyIn e desc)
    else false
  let nameMatch :=
    if !expNames.isEmpty && prodName != "" then
      expNames.any (fun e => pyIn e prodName)
    else false
  let origNameMatch :=
    if !patterns.isEmpty && origName != "" then
      patterns.any (fun pat => env.fnmatchFn origName pat)
    else false
  (if pattMatch || origNameMatch then 1 else 0) +
    (if descMatch then 2 else 0) + (if nameMatch then 3 else 0)

/-- The inner candidate loop for one configuration key: keep the best
`(best_score, best_match_for_key)` pair, skipping already-claimed paths and
property-less candidates; a candidate replaces the current best only with a
strictly positive, strictly greater score. -/
def bestMatchFor (env : MatchEnv) (processed : List (List String))
    (expNames expDescs patterns : List String) :
    List FoundInstallerInfo → Int × Option FoundInstallerInfo →
    Int × Option FoundInstallerInfo
  | [], best => best
  | info :: rest, best =>
    let best' :=
      if processed.contains info.path || info.fileProperties.isEmpty then best
      else
        let score := computeMatchScore env expNames expDescs patterns info
        if score > 0 && score > best.1 then (score, some info) else best
    bestMatchFor env processed expNames expDescs patterns rest best'

/-- The configuration loop of `ProgramInstaller.scan_for_installers`: for each
configuration in catalog order, select the best unclaimed candidate and claim
its path. Returns the `(key, match)` assignments and the claimed paths. -/
def matchConfigs (env : MatchEnv) (files : List FoundInstallerInfo) :
    List (String × ProgConfig) →
    List (String × FoundInstallerInfo) × List (List String) →
    List (String × FoundInstallerInfo) × List (List String)
  | [], acc => acc
  | (key, cfg) :: rest, acc =>
    let expNames := cfg.identity.expectedProductNames.map lowerStr
    let expDescs := cfg.identity.expectedDescriptions.map lowerStr
    let patterns := cfg.identity.installerPatterns.map lowerStr
    let best := bestMatchFor env acc.2 expNames expDescs patterns files (-1, none)
    let acc' :=
      match best.2 with
      | some info => (acc.1 ++ [(key, info)], acc.2 ++ [info.path])
      | none => acc
    matchConfigs env files rest acc'

/-- `ProgramInstaller.HEURISTIC_SCORE_THRESHOLD`. -/
def HEURISTIC_SCORE_THRESHOLD : ℚ := 1/2

/-- `ProgramInstaller.scan_for_installers`: scan, match candidates against the
catalog (first-claim-wins), then run the heuristic scorer over the unclaimed
remainder; returns the assignments and the sorted unidentified list. -/
def scan_for_installers (env : MatchEnv) (settings : DetectionSettings)
    (config : List (String × ProgConfig)) (searchPath : List String)
    (tree : List FSEntry) :
    List (String × FoundInstallerInfo) × List FoundInstallerInfo :=
  let potentialFiles := _find_potential_installers settings searchPath tree
  let res := matchConfigs env potentialFiles config ([], [])
  let remaining := potentialFiles.filter (fun i => !res.2.contains i.path)
  let unidentified := remaining.filter (fun i =>
    decide (HEURISTIC_SCORE_THRESHOLD ≤
      _score_potential_installer settings (env.statSize i.path) i))
  (res.1, unidentified.mergeSort
    (fun a b => lowerStr (fileName a.path) ≤ lowerStr (fileName b.path)))

-- --- Uninstall-information reverse lookup ---

/-- Registry values read from one `Uninstall` subkey, plus where it was found.
An all-`none` value models the empty dict returned on no match. -/
structure UninstInfo where
  displayName : Option String := none
  uninstallString : Option String := none
  installLocation : Option String := none
  displayVersion : Option String := none
  publisher : Option String := none
  keyPath : Option String := none
  deriving DecidableEq, Repr

/-- Match the pattern `/x\x7b[0-9a-f-]+\x7d` (case-insensitive) at the head of
`cs`, returning the matched characters. -/
def msiXMatchAt (cs : List Char) : Option (List Char) :=
  match cs with
  | '/' :: x :: '\x7b' :: rest =>
    if x == 'x' || x == 'X' then
      let run := rest.takeWhile (fun c => isHexDigit c || c == '-')
      match rest.drop run.length with
      | '\x7d' :: _ =>
        if run.isEmpty then none
        else some ('/' :: x :: '\x7b' :: (run ++ ['\x7d']))
      | _ => none
    else none
  | _ => none

/-- `re.split(r'(/x\x7b[0-9a-f-]+\x7d)', s, re.IGNORECASE)` restricted to what
the caller uses: the text before the first match and the match itself. -/
def findMsiXAux (before : List Char) : List Char → Option (List Char × List Char)
  | [] => none
  | c :: cs =>
    match msiXMatchAt (c :: cs) with
    | some m => some (before.reverse, m)
    | none => findMsiXAux (c :: before) cs

/-- `str(Path(p).parent)` on a component list. -/
def parentDirStr (p : List String) : String :=
  if p.length ≤ 1 then "." else pathToString p.dropLast

/-- The subkey loop of `ProgramInstaller._get_uninstall_info_from_registry`:
score each `Uninstall` entry (+5 display-name containment either way, +3 exact
install-location match, +2 bonus for both) and keep the strictly best. -/
def scanUninstSubkeys (env : RegEnv) (keyPath nameHintLow instDirHint : String) :
    List String → Int × UninstInfo → Int × UninstInfo
  | [], best => best
  | sub :: rest, best =>
    let subPath := keyPath ++ "\\" ++ sub
    let dn := _reg_read_string env "HKLM" subPath (some "DisplayName")
    let us := _reg_read_string env "HKLM" subPath (some "UninstallString")
    let il := _reg_read_string env "HKLM" subPath (some "InstallLocation")
    let dv := _reg_read_string env "HKLM" subPath (some "DisplayVersion")
    let pub := _reg_read_string env "HKLM" subPath (some "Publisher")
    let best' :=
      if !(truthyO dn) || !(truthyO us) then best
      else
        let dnLow := lowerStr (dn.getD "")
        let ilLow := lowerStr (il.getD "")
        let s1 : Int :=
          if pyIn nameHintLow dnLow || pyIn dnLow nameHintLow then 5 else 0
        let s2 : Int :=
          if ilLow != "" && instDirHint != "" && ilLow == instDirHint then
            s1 + 3 else s1
        let score : Int := if s2 ≥ 8 then s2 + 2 else s2
        if score > best.1 then
          (score, { displayName := dn, uninstallString := us,
                    installLocation := il, displayVersion := dv,
                    publisher := pub, keyPath := some subPath })
        else best
    scanUninstSubkeys env keyPath nameHintLow instDirHint rest best'

/-- `ProgramInstaller._get_uninstall_info_from_registry`: best-effort reverse
lookup of the uninstall entry matching a program, with the uninstall-string
cleanup applied to the winner. -/
def _get_uninstall_info_from_registry (env : RegEnv) (programNameHint : String)
    (installerPathHint : List String) : UninstInfo :=
  let uninstKeyPaths :=
    ["SOFTWARE\\Microsoft\\Windows\\CurrentVersion\\Uninstall",
     "SOFTWARE\\WOW6432Node\\Microsoft\\Windows\\CurrentVersion\\Uninstall"]
  let nameHintLow := lowerStr programNameHint
  let instDirHint :=
    if installerPathHint.isEmpty then ""
    else lowerStr (parentDirStr installerPathHint)
  let best := uninstKeyPaths.foldl (fun best kp =>
      if env.keyExists "HKLM" kp then
        scanUninstSubkeys env kp nameHintLow instDirHint
          (env.subkeys "HKLM" kp) best
      else best)
    ((0 : Int), ({} : UninstInfo))
  if best.1 > 0 then
    match best.2.uninstallString with
    | none => best.2
    | some raw0 =>
      if raw0 == "" then best.2
      else
        let raw1 :=
          if pyStartsWith raw0 "\"" && pyEndsWith raw0 "\"" then
            pyStrip ⟨(raw0.data.drop 1).dropLast⟩
          else raw0
        let cleaned :=
          if pyIn "msiexec.exe" (lowerStr raw1) then
            match findMsiXAux [] raw1.data with
            | some (bef, m) => pyStrip ⟨bef⟩ ++ " " ++ pyStrip ⟨m⟩
            | none => pyStrip raw1
          else pyStrip raw1
        { best.2 with uninstallString := some cleaned }
  else {}

-- --- Installation orchestrator ---

/-- The mode-dependent final command of `ProgramInstaller.install_program`
(auto = configured silent template, semi = reduced-UI rewrite, manual = bare
installer path). -/
def buildFinalInstallCmd (info : FoundInstallerInfo)
    (baseCmd quotedPath mode : String) : String :=
  if mode == "manual" then quotedPath
  else if mode == "semi" then
    if info.installerType == ".msi" then
      "msiexec /i " ++ quotedPath ++ " /passive /norestart"
    else if info.installerType == ".exe" then
      if pyIn "/s /v\"/qn" (lowerStr baseCmd) then
        strReplace (strReplace baseCmd "/qn" "/qb") "/s" ""
      else if pyIn "/S" baseCmd || pyIn "/SILENT" baseCmd ||
          pyIn "/VERYSILENT" baseCmd then baseCmd
      else quotedPath
    else baseCmd
  else baseCmd

/-- The full `start /wait` command string `install_program` hands to
`run_command`, given the configured template. -/
def installRunCmd (info : FoundInstallerInfo) (tmpl mode : String) : String :=
  let quotedPath := "\"" ++ pathToString info.path ++ "\""
  let baseCmd := strReplace tmpl "{installer_path}" quotedPath
  "start /wait \"\" " ++ buildFinalInstallCmd info baseCmd quotedPath mode

/-- `commands.get(info.installer_type)` followed by the falsiness test of
`if not cmd_template` (a missing and an empty template behave alike). -/
def cmdTemplateFor (status : ProgramStatus) (info : FoundInstallerInfo) :
    Option String :=
  match alookup status.config.installCommands info.installerType with
  | some t => if t == "" then none else some t
  | none => none

/-- The post-install verification block of `install_program`: the
product-code presence check for a package with a known product code, otherwise
a re-run of the registry rules; returns `(is_really_installed, found_version)`. -/
def postInstallCheck (env : SysEnv) (status : ProgramStatus)
    (info : FoundInstallerInfo) : Bool × Option String :=
  if info.installerType == ".msi" &&
      truthyS (pget info.fileProperties "MSI_ProductCode" "") then
    (env.msiInstalled (pget info.fileProperties "MSI_ProductCode" ""), none)
  else
    check_registry env.reg status.config.checkKeys

/-- `ProgramInstaller._record_installation`: write the ledger entry for a
verified install (uninstall string resolved from the registry, or built from
the MSI product code). -/
def _record_installation (env : SysEnv) (st : InstallerState)
    (programKey : String) (installerInfo : FoundInstallerInfo) :
    InstallerState :=
  match alookup st.programStatus programKey with
  | none => st
  | some status =>
    let progName := status.displayName
    let ui := _get_uninstall_info_from_registry env.reg progName
      installerInfo.path
    let ui :=
      if !(truthyO ui.uninstallString) &&
          installerInfo.installerType == ".msi" &&
          truthyS (pget installerInfo.fileProperties "MSI_ProductCode" "") then
        { ui with uninstallString := some ("msiexec /x " ++
            pget installerInfo.fileProperties "MSI_ProductCode" "") }
      else ui
    let displayVersion :=
      if installerInfo.installerType == ".msi" then
        if truthyS (pget installerInfo.fileProperties "ProductVersion" "") then
          some (pget installerInfo.fileProperties "ProductVersion" "")
        else ui.displayVersion
      else ui.displayVersion
    let entry : LogEntry :=
      { programKey := some programKey
        name := some progName
        timestamp := some (toString env.now)
        installerPath := some (pathToString installerInfo.path)
        installerType := some installerInfo.installerType
        uninstallString := ui.uninstallString
        installLocation := ui.installLocation
        displayVersion := displayVersion
        installerProductVersion :=
          pgetOpt installerInfo.fileProperties "ProductVersion"
        installerFileVersion :=
          pgetOpt installerInfo.fileProperties "FileVersion"
        productCode :=
          if installerInfo.installerType == ".msi" then
            pgetOpt installerInfo.fileProperties "MSI_ProductCode"
          else none }
    { st with installationLog := aset st.installationLog programKey entry }

/-- `ProgramInstaller.install_program`: configured installation with
post-success verification and ledger recording. Returns the reported success
and the updated state. -/
def install_program (env : SysEnv) (st : InstallerState)
    (programKey mode : String) : Bool × InstallerState :=
  match alookup st.programStatus programKey with
  | none => (false, st)
  | some status =>
    match status.foundInstaller with
    | none =>
      let ps := aupdate st.programStatus programKey
        (fun s => { s with installError := some "Installer not found" })
      (false, { st with programStatus := ps })
    | some info =>
      if status.isInstalled == some true then (true, st)
      else
        match cmdTemplateFor status info with
        | none =>
          let ps := aupdate st.programStatus programKey (fun s =>
            { s with
              installError :=
                some ("Missing command for " ++ info.installerType) })
          (false, { st with programStatus := ps })
        | some tmpl =>
          let r := run_command (env.proc (installRunCmd info tmpl mode))
          if r.1 then
            let chk := postInstallCheck env status info
            if chk.1 then
              let usesMsi := info.installerType == ".msi" &&
                truthyS (pget info.fileProperties "MSI_ProductCode" "")
              let ps := aupdate st.programStatus programKey (fun s =>
                { s with
                  isInstalled := some true
                  lastChecked := some env.now
                  installError := none
                  lastInstalledVersion :=
                    if usesMsi then s.lastInstalledVersion else chk.2 })
              (true, _record_installation env { st with programStatus := ps }
                programKey info)
            else
              let ps := aupdate st.programStatus programKey (fun s =>
                { s with
                  isInstalled := some false
                  lastChecked := some env.now
                  installError := some "Verification failed" })
              (false, { st with programStatus := ps })
          else
            let ps := aupdate st.programStatus programKey (fun s =>
              { s with
                isInstalled := some false
                lastChecked := some env.now
                installError :=
                  some ("Failed (Code " ++ toString r.2.1 ++ ")") })
            (false, { st with programStatus := ps })

/-- The full command string `install_unidentified_program` executes (its
generic template, mode rewriting, and `start /wait` wrapper). -/
def unidentifiedRunCmd (installerInfo : FoundInstallerInfo) (tmpl mode : String) :
    String :=
  let quotedPath := "\"" ++ pathToString installerInfo.path ++ "\""
  let baseCmd := strReplace tmpl "{installer_path}" quotedPath
  let finalCmd :=
    if mode == "manual" then quotedPath
    else if mode == "semi" then
      if installerInfo.installerType == ".msi" then
        "msiexec /i " ++ quotedPath ++ " /passive /norestart"
      else if installerInfo.installerType == ".exe" then
        if pyIn "/s /v\"/qn" (lowerStr baseCmd) then
          strReplace baseCmd "/qn" "/qb"
        else if pyIn "/S" baseCmd || pyIn "/SILENT" baseCmd ||
            pyIn "/VERYSILENT" baseCmd then baseCmd
        else quotedPath
      else baseCmd
    else baseCmd
  "start /wait \"\" " ++ finalCmd

/-- `ProgramInstaller.install_unidentified_program`: best-guess silent install
of a heuristically found artifact; no verification, no ledger write, no status
update. -/
def genericCommands : List (String × String) :=
  [(".exe", "{installer_path} /S /NORESTART"),
   (".msi", "msiexec /i \"{installer_path}\" /qn /norestart")]

def install_unidentified_program (env : SysEnv) (st : InstallerState)
    (installerInfo : FoundInstallerInfo) (mode : String) :
    Bool × InstallerState :=
  match alookup genericCommands installerInfo.installerType with
  | none => (false, st)
  | some tmpl =>
    let r := run_command (env.proc (unidentifiedRunCmd installerInfo tmpl mode))
    (r.1, st)

-- --- Uninstallation orchestrator ---

/-- `ProgramInstaller._add_silent_flags_to_command`. -/
def _add_silent_flags_to_command (command : String) : String :=
  if command == "" then ""
  else
    let cmdLower := lowerStr command
    let modCmd := pyStrip command
    let isMsiUninstall := pyIn "msiexec" cmdLower &&
      (pyIn "/x" cmdLower || pyIn "/uninstall" cmdLower)
    if isMsiUninstall then
      let m1 :=
        if !(pyIn "/qn" cmdLower) && !(pyIn "/quiet" cmdLower) then
          modCmd ++ " /qn" else modCmd
      if !(pyIn "/norestart" cmdLower) then m1 ++ " /norestart" else m1
    else
      let hasSilentFlag := [" /s", "/silent", "/verysilent", "/q", "/quiet",
        "-s", "-silent", "-q"].any (fun f => pyIn f cmdLower)
      if !hasSilentFlag then modCmd ++ " /S" else modCmd

/-- The command-resolution prefix of `ProgramInstaller.uninstall_program`:
the ledger entry's recorded command if present, otherwise the registry reverse
lookup; `none` on the paths that return early without running anything. -/
def resolveUninstall (env : SysEnv) (st : InstallerState) (programKey : String) :
    Option (String × String) :=
  match alookup st.installationLog programKey with
  | some entry =>
    let progName := entry.name.getD programKey
    match entry.uninstallString with
    | some c => if c == "" then none else some (c, progName)
    | none => none
  | none =>
    match alookup st.programStatus programKey with
    | none => none
    | some status =>
      let ui := _get_uninstall_info_from_registry env.reg status.displayName []
      match ui.uninstallString with
      | some c => if c == "" then none else some (c, status.displayName)
      | none => none

/-- `ProgramInstaller.uninstall_program`: resolve the uninstall command,
normalise a product-code MSI uninstall, inject silent flags, execute, verify
independently, and update ledger and status only on verified success. -/
def uninstall_program (env : SysEnv) (st : InstallerState) (programKey : String) :
    Bool × InstallerState :=
  match resolveUninstall env st programKey with
  | none => (false, st)
  | some (cmdOrig, _progName) =>
    let low := lowerStr cmdOrig
    let pcAndCmd :=
      if pyIn "msiexec" low && (pyIn "/x" low || pyIn "/uninstall" low) then
        match findGuid cmdOrig with
        | some g => (some g, "msiexec /x " ++ g)
        | none => ((none : Option String), cmdOrig)
      else (none, cmdOrig)
    let cmdSilent := _add_silent_flags_to_command pcAndCmd.2
    let r := run_command (env.proc ("start /wait \"\" " ++ cmdSilent))
    if r.1 then
      let verified : Bool :=
        match pcAndCmd.1 with
        | some pc => !(env.msiInstalled pc)
        | none =>
          match alookup st.programStatus programKey with
          | some status => !(check_registry env.reg status.config.checkKeys).1
          | none => true
      if verified then
        let st1 := { st with installationLog := aerase st.installationLog programKey }
        let ps := aupdate st1.programStatus programKey (fun s =>
          { s with
            isInstalled := some false
            lastChecked := some env.now
            lastInstalledVersion := none
            installError := none })
        (true, { st1 with programStatus := ps })
      else
        let ps := aupdate st.programStatus programKey (fun s =>
          { s with installError := some "Uninstall verification failed" })
        (false, { st with programStatus := ps })
    else
      let ps := aupdate st.programStatus programKey (fun s =>
        { s with
          installError :=
            some ("Uninstall failed (Code " ++ toString r.2.1 ++ ")") })
      (false, { st with programStatus := ps })

-- --- Ledger persistence ---

/-- Outcome of opening and JSON-decoding the ledger file. -/
inductive ParseOutcome where
  | ok (log : List (String × LogEntry))
  | decodeError
  | otherError
  deriving Repr

/-- Filesystem view consumed by `_load_installation_log`. -/
structure LoadEnv where
  logFilePath : Option String
  fileExists : Bool
  parsed : ParseOutcome

/-- `ProgramInstaller._load_installation_log`: returns the loaded in-memory
ledger and, when a corrupt file was moved aside, the destination it was
renamed to. -/
def _load_installation_log (env : LoadEnv) :
    List (String × LogEntry) × Option String :=
  match env.logFilePath with
  | none => ([], none)
  | some p =>
    if !env.fileExists then ([], none)
    else
      match env.parsed with
      | .ok log => (log, none)
      | .decodeError => ([], some (p ++ ".corrupt"))
      | .otherError => ([], none)

-- --- Association-list lemmas ---

theorem alookup_aupdate {α : Type} (l : List (String × α)) (k : String)
    (f : α → α) : alookup (aupdate l k f) k = (alookup l k).map f := by
  induction l with
  | nil => rfl
  | cons kv rest ih =>
    by_cases h : kv.1 == k
    · simp [alookup, aupdate, List.find?, h] at *
    · simp [alookup, aupdate, List.find?, h] at *
      exact ih

theorem alookup_aerase {α : Type} (l : List (String × α)) (k : String) :
    alookup (aerase l k) k = none := by
  induction l with
  | nil => rfl
  | cons kv rest ih =>
    by_cases h : kv.1 = k
    · have hb : (kv.1 != k) = false := by simp [bne, h]
      simpa [aerase, List.filter_cons, hb] using ih
    · have hb : (kv.1 != k) = true := by simp [bne, h]
      have hb2 : (kv.1 == k) = false := beq_eq_false_iff_ne.mpr h
      simpa [aerase, alookup, List.find?, List.filter_cons, hb, hb2] using ih

-- --- C5: the heuristic score is clamped to the unit interval ---

/-- C5: for every artifact — any path, property map, artifact type and any
size-oracle answer — the heuristic score returned by
`_score_potential_installer` lies in the closed interval `[0, 1]`. -/
theorem claim_C5_score_in_unit_interval (settings : DetectionSettings)
    (sizeBytes : Option Nat) (info : FoundInstallerInfo) :
    0 ≤ _score_potential_installer settings sizeBytes info ∧
      _score_potential_installer settings sizeBytes info ≤ 1 := by
  unfold _score_potential_installer
  exact ⟨le_max_left _ _, max_le (by norm_num) (min_le_right _ _)⟩

-- --- C9: ledger load is failure-tolerant ---

/-- C9: on ledger load, a missing file yields an empty in-memory ledger with
no side effect, and a file that fails to JSON-decode is renamed aside with a
`".corrupt"` suffix while the ledger starts empty. -/
theorem claim_C9_ledger_load (env : LoadEnv) (p : String)
    (hp : env.logFilePath = some p) :
    (env.fileExists = false → _load_installation_log env = ([], none)) ∧
    (env.fileExists = true → env.parsed = ParseOutcome.decodeError →
      _load_installation_log env = ([], some (p ++ ".corrupt"))) := by
  unfold _load_installation_log
  rw [hp]
  constructor
  · intro h; simp [h]
  · intro h1 h2; simp [h1, h2]

def c9Env : LoadEnv :=
  { logFilePath := some "C:\\log.json", fileExists := true,
    parsed := .decodeError }

theorem claim_C9_witness :
    c9Env.logFilePath = some "C:\\log.json" ∧ c9Env.fileExists = true ∧
    _load_installation_log c9Env = ([], some ("C:\\log.json" ++ ".corrupt")) :=
  ⟨rfl, rfl, (claim_C9_ledger_load c9Env "C:\\log.json" rfl).2 rfl rfl⟩

-- --- C4: detection rules evaluate in order with first-success short-circuit ---

/-- C4: rules are evaluated in declaration order; the first rule that
establishes presence short-circuits evaluation (later rules are never
consulted) and supplies the returned version (possibly null); failing rules
(missing path or value) are skipped without error; if no rule succeeds the
result is `(false, none)`; an existence-only rule with no version value yields
`(installed, none)` with `installed` exactly the path-existence test. -/
theorem claim_C4_inspector_order (env : RegEnv) (l1 l2 : List RegRule)
    (r : RegRule) (v : Option String) (p : String) (hp : p ≠ "")
    (h1 : ∀ r' ∈ l1, evalRule env r' = none)
    (hr : evalRule env r = some v) :
    check_registry env (l1 ++ r :: l2) = (true, v) ∧
    (∀ rules : List RegRule, (∀ r' ∈ rules, evalRule env r' = none) →
      check_registry env rules = (false, none)) ∧
    check_registry env [{ path := some p, checkExistence := true }] =
      (env.keyExists "HKLM" p, none) := by
  refine ⟨?_, ?_, ?_⟩
  · induction l1 with
    | nil => simp [check_registry, hr]
    | cons a rest ih =>
      have ha : evalRule env a = none := h1 a (by simp)
      have hrest : ∀ r' ∈ rest, evalRule env r' = none := by
        intro r' hr'; exact h1 r' (by simp [hr'])
      simpa [check_registry, ha] using ih hrest
  · intro rules hall
    induction rules with
    | nil => rfl
    | cons a rest ih =>
      have ha : evalRule env a = none := hall a (by simp)
      have hrest : ∀ r' ∈ rest, evalRule env r' = none := by
        intro r' hr'; exact hall r' (by simp [hr'])
      simpa [check_registry, ha] using ih hrest
  · have hpb : (p == "") = false := beq_eq_false_iff_ne.mpr hp
    have hHK : hiveNorm "HKLM" = "HKLM" := rfl
    by_cases hk : env.keyExists "HKLM" p
    · simp [check_registry, evalRule, hHK, hpb, hk, _reg_read_string]
    · rw [Bool.not_eq_true] at hk
      simp [check_registry, evalRule, hHK, hpb, hk, _reg_read_string]

def c4Env : RegEnv :=
  { keyExists := fun _ p => p == "SOFTWARE\\Acme"
    readString := fun _ p v =>
      if p == "SOFTWARE\\Acme" && v == "Ver" then some " 1.2 " else none
    subkeys := fun _ _ => []
    reMatch := fun _ _ => false }

def c4RuleMiss : RegRule := { path := some "SOFTWARE\\Nope", checkExistence := true }

def c4RuleHit : RegRule :=
  { path := some "SOFTWARE\\Acme", checkExistence := true, getValue := some "Ver" }

theorem claim_C4_witness :
    ("SOFTWARE\\Acme" : String) ≠ "" ∧
    evalRule c4Env c4RuleMiss = none ∧
    evalRule c4Env c4RuleHit = some (some "1.2") ∧
    check_registry c4Env ([c4RuleMiss] ++ c4RuleHit :: [c4RuleMiss]) =
      (true, some "1.2") ∧
    check_registry c4Env
      [{ path := some "SOFTWARE\\Acme", checkExistence := true }] =
      (c4Env.keyExists "HKLM" "SOFTWARE\\Acme", none) := by
  have h := claim_C4_inspector_order c4Env [c4RuleMiss] [c4RuleMiss] c4RuleHit
    (some "1.2") "SOFTWARE\\Acme" (by decide)
    (by intro r' hr'; simp at hr'; subst hr'; decide) (by decide)
  exact ⟨by decide, by decide, by decide, h.1, h.2.2⟩

-- --- C10: heuristic installs are fire-and-forget ---

/-- C10: installing a heuristically identified artifact reports success
exactly when the launched process completes with exit code 0, 3010 or 1641
(timeouts and launch failures report failure), and the installer state —
statuses and ledger — is returned unchanged, with no verification performed. -/
theorem claim_C10_unidentified_install (env : SysEnv) (st : InstallerState)
    (info : FoundInstallerInfo) (mode t : String)
    (ht : alookup genericCommands info.installerType = some t) :
    (install_unidentified_program env st info mode).2 = st ∧
    ((install_unidentified_program env st info mode).1 = true ↔
      ∃ code stdout stderr,
        env.proc (unidentifiedRunCmd info t mode) =
          ProcResult.completed code stdout stderr ∧
        (code = 0 ∨ code = 3010 ∨ code = 1641)) := by
  have key : install_unidentified_program env st info mode =
      ((run_command (env.proc (unidentifiedRunCmd info t mode))).1, st) := by
    unfold install_unidentified_program
    rw [ht]
  rw [key]
  refine ⟨rfl, ?_⟩
  generalize env.proc (unidentifiedRunCmd info t mode) = pr
  cases pr with
  | completed code o e =>
    simp only [run_command, Bool.or_eq_true, beq_iff_eq,
      ProcResult.completed.injEq]
    constructor
    · intro h
      exact ⟨code, o, e, ⟨rfl, rfl, rfl⟩, by tauto⟩
    · rintro ⟨c, o', e', ⟨hc, -, -⟩, hcode⟩
      subst hc
      tauto
  | timedOut =>
    simp [run_command]
  | notFound =>
    simp [run_command]
  | excd m =>
    simp [run_command]

def c10Info : FoundInstallerInfo :=
  { path := ["D:", "setup.exe"], fileProperties := [("ProductName", "Widget")],
    installerType := ".exe" }

def c10Env : SysEnv :=
  { reg := c4Env, msiInstalled := fun _ => false,
    proc := fun _ => .completed 3010 "" "", now := 7 }

def c10Status : ProgramStatus :=
  { programKey := "k", displayName := "K", config := {} }

def c10St : InstallerState :=
  { programStatus := [("k", c10Status)], installationLog := [] }

theorem claim_C10_witness :
    alookup genericCommands c10Info.installerType =
      some "{installer_path} /S /NORESTART" ∧
    (install_unidentified_program c10Env c10St c10Info "auto").2 = c10St ∧
    (install_unidentified_program c10Env c10St c10Info "auto").1 = true := by
  have h := claim_C10_unidentified_install c10Env c10St c10Info "auto"
    "{installer_path} /S /NORESTART" (by decide)
  refine ⟨by decide, h.1, h.2.mpr ⟨3010, "", "", by decide, by omega⟩⟩

-- --- C1: the matching pass assigns each artifact at most once ---

theorem bestMatchFor_not_processed (env : MatchEnv)
    (processed : List (List String)) (en ed pt : List String) :
    ∀ (files : List FoundInstallerInfo)
      (b : Int × Option FoundInstallerInfo),
      (∀ j, b.2 = some j → processed.contains j.path = false) →
      ∀ i, (bestMatchFor env processed en ed pt files b).2 = some i →
        processed.contains i.path = false := by
  intro files
  induction files with
  | nil => intro b hb i hi; exact hb i hi
  | cons f rest ih =>
    intro b hb i hi
    rw [bestMatchFor] at hi
    refine ih _ ?_ i hi
    intro j hj
    by_cases hc : (processed.contains f.path || f.fileProperties.isEmpty) = true
    · rw [if_pos hc] at hj
      exact hb j hj
    · rw [if_neg hc] at hj
      by_cases hs : (computeMatchScore env en ed pt f > 0 &&
          computeMatchScore env en ed pt f > b.1) = true
      · rw [if_pos hs] at hj
        cases hj
        simp only [Bool.or_eq_true, not_or, Bool.not_eq_true] at hc
        exact hc.1
      · rw [if_neg hs] at hj
        exact hb j hj

theorem matchConfigs_nodup_aux (env : MatchEnv)
    (files : List FoundInstallerInfo) :
    ∀ (config : List (String × ProgConfig))
      (acc : List (String × FoundInstallerInfo) × List (List String)),
      acc.2 = acc.1.map (fun m => m.2.path) → acc.2.Nodup →
      (matchConfigs env files config acc).2 =
        (matchConfigs env files config acc).1.map (fun m => m.2.path) ∧
      (matchConfigs env files config acc).2.Nodup := by
  intro config
  induction config with
  | nil => intro acc h1 h2; exact ⟨h1, h2⟩
  | cons kv rest ih =>
    intro acc h1 h2
    obtain ⟨key, cfg⟩ := kv
    rw [matchConfigs]
    set en := cfg.identity.expectedProductNames.map lowerStr
    set ed := cfg.identity.expectedDescriptions.map lowerStr
    set pt := cfg.identity.installerPatterns.map lowerStr
    cases hbest : (bestMatchFor env acc.2 en ed pt files (-1, none)).2 with
    | none =>
      simp only [hbest]
      exact ih acc h1 h2
    | some info =>
      simp only [hbest]
      have hnp : acc.2.contains info.path = false :=
        bestMatchFor_not_processed env acc.2 en ed pt files (-1, none)
          (by intro j hj; cases hj) info hbest
      have hnotmem : info.path ∉ acc.2 := by simpa using hnp
      refine ih (acc.1 ++ [(key, info)], acc.2 ++ [info.path]) ?_ ?_
      · simp [h1]
      · simp only [List.nodup_append, List.nodup_cons, List.nodup_nil]
        refine ⟨h2, by simp, ?_⟩
        intro a ha hb
        simp only [List.mem_singleton] at hb
        subst hb
        exact hnotmem ha

/-- C1: in every scan pass, each discovered artifact is claimed by at most one
software definition — once matched, its path is removed from the candidate
pool, so the paths of the returned match assignments contain no duplicate. -/
theorem claim_C1_one_to_one (env : MatchEnv) (settings : DetectionSettings)
    (config : List (String × ProgConfig)) (searchPath : List String)
    (tree : List FSEntry) :
    ((scan_for_installers env settings config searchPath tree).1.map
      (fun m => m.2.path)).Nodup := by
  have h := matchConfigs_nodup_aux env
    (_find_potential_installers settings searchPath tree) config ([], [])
    rfl List.nodup_nil
  have hfst : (scan_for_installers env settings config searchPath tree).1 =
      (matchConfigs env (_find_potential_installers settings searchPath tree)
        config ([], [])).1 := rfl
  rw [hfst]
  rw [← h.1]
  exact h.2

-- --- C3: weighted scoring and first-wins best-candidate selection ---

/-- The code's skip test for a candidate: already claimed, or no properties. -/
def skipped (processed : List (List String)) (i : FoundInstallerInfo) : Bool :=
  processed.contains i.path || i.fileProperties.isEmpty

theorem computeMatchScore_eq (env : MatchEnv) (en ed pt : List String)
    (i : FoundInstallerInfo) :
    computeMatchScore env en ed pt i =
      (if (∃ p ∈ pt, env.fnmatchFn (lowerStr (fileName i.path)) p = true) ∨
          (lowerStr (pget i.fileProperties "OriginalFilename" "") ≠ "" ∧
           ∃ p ∈ pt, env.fnmatchFn
             (lowerStr (pget i.fileProperties "OriginalFilename" "")) p = true)
       then 1 else 0) +
      (if lowerStr (pget i.fileProperties "FileDescription" "") ≠ "" ∧
          ∃ e ∈ ed,
            pyIn e (lowerStr (pget i.fileProperties "FileDescription" "")) = true
       then 2 else 0) +
      (if lowerStr (pget i.fileProperties "ProductName" "") ≠ "" ∧
          ∃ e ∈ en,
            pyIn e (lowerStr (pget i.fileProperties "ProductName" "")) = true
       then 3 else 0) := by
  simp only [computeMatchScore]
  congr 1
  · congr 1
    · apply if_congr _ rfl rfl
      cases pt with
      | nil => simp
      | cons p ps =>
        by_cases ho :
            lowerStr (pget i.fileProperties "OriginalFilename" "") = "" <;>
          simp [List.any_eq_true, ho]
    · apply if_congr _ rfl rfl
      cases ed with
      | nil => simp
      | cons e es =>
        by_cases hd :
            lowerStr (pget i.fileProperties "FileDescription" "") = "" <;>
          simp [List.any_eq_true, hd, And.comm]
  · apply if_congr _ rfl rfl
    cases en with
    | nil => simp
    | cons e es =>
      by_cases hn : lowerStr (pget i.fileProperties "ProductName" "") = "" <;>
        simp [List.any_eq_true, hn, And.comm]

theorem bestMatchFor_invariant (env : MatchEnv)
    (processed : List (List String)) (en ed pt : List String) :
    ∀ (files : List FoundInstallerInfo) (b : Int × Option FoundInstallerInfo)
      (s : Int) (i : FoundInstallerInfo),
      bestMatchFor env processed en ed pt files b = (s, some i) →
      (b = (s, some i) ∧ ∀ j ∈ files, skipped processed j = false →
         computeMatchScore env en ed pt j ≤ 0 ∨
         computeMatchScore env en ed pt j ≤ s) ∨
      (skipped processed i = false ∧ s = computeMatchScore env en ed pt i ∧
       0 < s ∧ b.1 < s ∧
       ∃ l1 l2, files = l1 ++ i :: l2 ∧
         (∀ j ∈ l1, skipped processed j = false →
            computeMatchScore env en ed pt j ≤ 0 ∨
            computeMatchScore env en ed pt j < s) ∧
         (∀ j ∈ l2, skipped processed j = false →
            computeMatchScore env en ed pt j ≤ 0 ∨
            computeMatchScore env en ed pt j ≤ s)) := by
  intro files
  induction files with
  | nil =>
    intro b s i h
    rw [bestMatchFor] at h
    exact Or.inl ⟨h, by simp⟩
  | cons f rest ih =>
    intro b s i h
    rw [bestMatchFor] at h
    by_cases hsk : skipped processed f = true
    · rw [show (processed.contains f.path || f.fileProperties.isEmpty) =
          skipped processed f from rfl, hsk, if_pos rfl] at h
      rcases ih b s i h with ⟨hb, hall⟩ | ⟨h1, h2, h3, h4, l1, l2, hd, hl1, hl2⟩
      · refine Or.inl ⟨hb, ?_⟩
        intro j hj hjs
        rcases List.mem_cons.mp hj with rfl | hj'
        · rw [hjs] at hsk; cases hsk
        · exact hall j hj' hjs
      · refine Or.inr ⟨h1, h2, h3, h4, f :: l1, l2, by simp [hd], ?_, hl2⟩
        intro j hj hjs
        rcases List.mem_cons.mp hj with rfl | hj'
        · rw [hjs] at hsk; cases hsk
        · exact hl1 j hj' hjs
    · rw [Bool.not_eq_true] at hsk
      rw [show (processed.contains f.path || f.fileProperties.isEmpty) =
          skipped processed f from rfl, hsk, if_neg (by simp)] at h
      by_cases hup : (computeMatchScore env en ed pt f > 0 &&
          computeMatchScore env en ed pt f > b.1) = true
      · rw [if_pos hup] at h
        simp only [Bool.and_eq_true, decide_eq_true_eq] at hup
        rcases ih _ s i h with ⟨hb, hall⟩ | ⟨h1, h2, h3, h4, l1, l2, hd, hl1, hl2⟩
        · have hif : i = f := by
            have := congrArg Prod.snd hb
            simp at this
            exact this.symm
          subst hif
          have hsf : s = computeMatchScore env en ed pt i := by
            have := congrArg Prod.fst hb
            simpa using this.symm
          refine Or.inr ⟨hsk, hsf, by omega, by omega, [], rest, rfl, by simp, ?_⟩
          intro j hj hjs
          exact hall j hj hjs
        · refine Or.inr ⟨h1, h2, h3, by omega, f :: l1, l2, by simp [hd], ?_, hl2⟩
          intro j hj hjs
          rcases List.mem_cons.mp hj with rfl | hj'
          · right
            have : (b.1 : Int) < computeMatchScore env en ed pt j := hup.2
            omega
          · exact hl1 j hj' hjs
      · rw [if_neg hup] at h
        simp only [Bool.and_eq_true, decide_eq_true_eq, not_and, not_lt] at hup
        rcases ih b s i h with ⟨hb, hall⟩ | ⟨h1, h2, h3, h4, l1, l2, hd, hl1, hl2⟩
        · refine Or.inl ⟨hb, ?_⟩
          intro j hj hjs
          rcases List.mem_cons.mp hj with rfl | hj'
          · by_cases hpos : computeMatchScore env en ed pt j ≤ 0
            · exact Or.inl hpos
            · right
              have hb1 : b.1 = s := by
                have := congrArg Prod.fst hb; simpa using this
              have := hup (by omega)
              omega
          · exact hall j hj' hjs
        · refine Or.inr ⟨h1, h2, h3, h4, f :: l1, l2, by simp [hd], ?_, hl2⟩
          intro j hj hjs
          rcases List.mem_cons.mp hj with rfl | hj'
          · by_cases hpos : computeMatchScore env en ed pt j ≤ 0
            · exact Or.inl hpos
            · right
              have := hup (by omega)
              omega
          · exact hl1 j hj' hjs

/-- C3: a candidate's weighted score is exactly the sum of +1 for a glob match
of the filename or extracted original filename, +2 for a configured
description substring occurring (case-insensitively) in the extracted
description, and +3 for a configured product-name substring occurring in the
extracted product name; and the configuration's match is the first candidate
attaining the strictly highest positive score — every earlier eligible
candidate scores strictly less, every later one at most as much. -/
theorem claim_C3_weighted_first_wins (env : MatchEnv)
    (processed : List (List String)) (en ed pt : List String)
    (files : List FoundInstallerInfo) (s : Int) (i : FoundInstallerInfo)
    (h : bestMatchFor env processed en ed pt files (-1, none) = (s, some i)) :
    (∀ j : FoundInstallerInfo, computeMatchScore env en ed pt j =
      (if (∃ p ∈ pt, env.fnmatchFn (lowerStr (fileName j.path)) p = true) ∨
          (lowerStr (pget j.fileProperties "OriginalFilename" "") ≠ "" ∧
           ∃ p ∈ pt, env.fnmatchFn
             (lowerStr (pget j.fileProperties "OriginalFilename" "")) p = true)
       then 1 else 0) +
      (if lowerStr (pget j.fileProperties "FileDescription" "") ≠ "" ∧
          ∃ e ∈ ed,
            pyIn e (lowerStr (pget j.fileProperties "FileDescription" "")) = true
       then 2 else 0) +
      (if lowerStr (pget j.fileProperties "ProductName" "") ≠ "" ∧
          ∃ e ∈ en,
            pyIn e (lowerStr (pget j.fileProperties "ProductName" "")) = true
       then 3 else 0)) ∧
    skipped processed i = false ∧ s = computeMatchScore env en ed pt i ∧
    0 < s ∧
    ∃ l1 l2, files = l1 ++ i :: l2 ∧
      (∀ j ∈ l1, skipped processed j = false →
         computeMatchScore env en ed pt j < s) ∧
      (∀ j ∈ l2, skipped processed j = false →
         computeMatchScore env en ed pt j ≤ s) := by
  rcases bestMatchFor_invariant env processed en ed pt files (-1, none) s i h
    with ⟨hb, -⟩ | ⟨h1, h2, h3, -, l1, l2, hd, hl1, hl2⟩
  · exact absurd (congrArg Prod.snd hb) (by simp)
  · refine ⟨fun j => computeMatchScore_eq env en ed pt j, h1, h2, h3,
      l1, l2, hd, ?_, ?_⟩
    · intro j hj hjs
      rcases hl1 j hj hjs with hle | hlt
      · omega
      · exact hlt
    · intro j hj hjs
      rcases hl2 j hj hjs with hle | hlt
      · omega
      · exact hlt

def c3Env : MatchEnv :=
  { fnmatchFn := fun n p => n == p, statSize := fun _ => none }

def c3A : FoundInstallerInfo :=
  { path := ["C:", "a.exe"], fileProperties := [("ProductName", "Widget X")],
    installerType := ".exe" }

def c3B : FoundInstallerInfo :=
  { path := ["C:", "b.exe"], fileProperties := [("ProductName", "Widget X")],
    installerType := ".exe" }

theorem claim_C3_witness :
    bestMatchFor c3Env [] ["widget"] [] [] [c3A, c3B] (-1, none) =
      (3, some c3A) ∧
    (skipped [] c3A = false ∧
     (3 : Int) = computeMatchScore c3Env ["widget"] [] [] c3A ∧
     (0 : Int) < 3 ∧
     ∃ l1 l2, [c3A, c3B] = l1 ++ c3A :: l2 ∧
       (∀ j ∈ l1, skipped [] j = false →
          computeMatchScore c3Env ["widget"] [] [] j < 3) ∧
       (∀ j ∈ l2, skipped [] j = false →
          computeMatchScore c3Env ["widget"] [] [] j ≤ 3)) :=
  ⟨by decide, by
    have h := claim_C3_weighted_first_wins c3Env [] ["widget"] [] []
      [c3A, c3B] 3 c3A (by decide)
    exact ⟨h.2.1, h.2.2.1, h.2.2.2.1, h.2.2.2.2⟩⟩

-- --- C6: ignored directories are pruned; no node_modules component ---

theorem splitFirstDot_eq_none (cs : List Char) (h : '.' ∉ cs) :
    splitFirstDot cs = none := by
  induction cs with
  | nil => rfl
  | cons c rest ih =>
    rw [splitFirstDot, if_neg, ih (fun hm => h (List.mem_cons_of_mem c hm))]
    · rfl
    · intro hc
      exact h (hc ▸ List.mem_cons_self c rest)

theorem name_ne_node_modules_of_ext (n : String)
    (h : (lowerStr (fileSuffix n) == ".exe" ||
      lowerStr (fileSuffix n) == ".msi") = true) :
    lowerStr n ≠ "node_modules" := by
  intro heq
  have hdata : n.data.map Char.toLower = "node_modules".data := by
    have := congrArg String.data heq
    simpa [lowerStr] using this
  have hdot : '.' ∉ n.data := by
    intro hmem
    have h1 : Char.toLower '.' ∈ n.data.map Char.toLower :=
      List.mem_map_of_mem _ hmem
    rw [show Char.toLower '.' = '.' from rfl, hdata] at h1
    exact absurd h1 (by decide)
  have hnone : splitFirstDot n.data.reverse = none :=
    splitFirstDot_eq_none _ (by simpa using hdot)
  have hsuf : fileSuffix n = "" := by
    rw [fileSuffix, hnone]
  rw [hsuf] at h
  exact absurd h (by decide)

theorem processFile_shape (s : DetectionSettings) (dir : List String)
    (n : String) (sz : Nat) (ep : Option (List (String × String)))
    (mp : List (String × String)) (mc : Option String)
    (info : FoundInstallerInfo)
    (h : processFile s dir n sz ep mp mc = some info) :
    info.path = dir ++ [n] ∧
    (lowerStr (fileSuffix n) == ".exe" ||
      lowerStr (fileSuffix n) == ".msi") = true := by
  simp only [processFile] at h
  by_cases hext : (!(lowerStr (fileSuffix n) == ".exe" ||
      lowerStr (fileSuffix n) == ".msi")) = true
  · rw [if_pos hext] at h
    cases h
  · rw [if_neg hext] at h
    have hext' : (lowerStr (fileSuffix n) == ".exe" ||
        lowerStr (fileSuffix n) == ".msi") = true := by
      revert hext
      cases lowerStr (fileSuffix n) == ".exe" || lowerStr (fileSuffix n) == ".msi" <;>
        simp
    refine ⟨?_, hext'⟩
    split at h
    · cases h
    split at h
    · cases h
    split at h
    · cases h
    split at h
    · cases h
    split at h
    · cases h
    cases h
    rfl

theorem walkLevel_no_node_modules (s : DetectionSettings)
    (hbad : "node_modules" ∈ s.ignoreDirs.map lowerStr) :
    ∀ (N : Nat) (entries : List FSEntry), sizeOf entries ≤ N →
    ∀ (dir : List String), (∀ c ∈ dir, lowerStr c ≠ "node_modules") →
    ∀ info ∈ walkLevel s dir entries, ∀ c ∈ info.path,
      lowerStr c ≠ "node_modules" := by
  intro N
  induction N with
  | zero =>
    intro entries hsz
    exfalso
    cases entries with
    | nil => simp at hsz
    | cons e rest => simp at hsz
  | succ N ih =>
    intro entries hsz dir hdir info hinfo c hc
    rw [walkLevel] at hinfo
    rcases List.mem_append.mp hinfo with hf | hsub
    · -- a file of the current directory
      simp only [filesAtLevel, List.mem_filterMap] at hf
      obtain ⟨e, -, he⟩ := hf
      cases e with
      | dir _ _ => cases he
      | file n' sz' ep' mp' mc' =>
        obtain ⟨hpath, hext⟩ := processFile_shape s dir n' sz' ep' mp' mc' info he
        rw [hpath] at hc
        rcases List.mem_append.mp hc with hcd | hcn
        · exact hdir c hcd
        · rw [List.mem_singleton] at hcn
          subst hcn
          exact name_ne_node_modules_of_ext _ hext
    · -- a file of some non-pruned subtree
      clear hinfo
      induction entries with
      | nil => simp [walkSubdirs] at hsub
      | cons e rest ihl =>
        cases e with
        | file n' sz' ep' mp' mc' =>
          rw [walkSubdirs] at hsub
          exact ihl (by simp at hsz ⊢; omega) hsub
        | dir n' es =>
          rw [walkSubdirs] at hsub
          rcases List.mem_append.mp hsub with hin | hrest
          · by_cases hig :
                ((s.ignoreDirs.map lowerStr).contains (lowerStr n')) = true
            · rw [if_pos hig] at hin
              cases hin
            · rw [if_neg hig] at hin
              have hn' : lowerStr n' ≠ "node_modules" := by
                intro hh
                rw [Bool.not_eq_true] at hig
                have : lowerStr n' ∉ s.ignoreDirs.map lowerStr := by
                  simpa using hig
                rw [hh] at this
                exact this hbad
              refine ih es ?_ (dir ++ [n']) ?_ info hin c hc
              · simp at hsz ⊢; omega
              · intro c' hc'
                rcases List.mem_append.mp hc' with hcd | hcn
                · exact hdir c' hcd
                · rw [List.mem_singleton] at hcn
                  subst hcn
                  exact hn'
          · exact ihl (by simp at hsz ⊢; omega) hrest

/-- C6: for every scan whose ignored-directory set contains `"node_modules"`
(and whose scan root does not itself lie under such a directory), directory
names in the ignored set are pruned case-insensitively before descending, and
no artifact returned by the scanner has `node_modules` (in any letter casing)
as a component anywhere in its path. -/
theorem claim_C6_node_modules_pruned (settings : DetectionSettings)
    (searchPath : List String) (tree : List FSEntry)
    (hbad : "node_modules" ∈ settings.ignoreDirs.map lowerStr)
    (hbase : ∀ c ∈ searchPath, lowerStr c ≠ "node_modules") :
    ∀ info ∈ _find_potential_installers settings searchPath tree,
      ∀ c ∈ info.path, lowerStr c ≠ "node_modules" :=
  walkLevel_no_node_modules settings hbad (sizeOf tree) tree le_rfl
    searchPath hbase

def c6Settings : DetectionSettings := { ignoreDirs := ["Node_Modules"] }

def c6Tree : List FSEntry :=
  [FSEntry.dir "node_modules"
    [FSEntry.file "evil.exe" 10 (some [("ProductName", "E")]) [] none],
   FSEntry.file "good.exe" 10 (some [("ProductName", "G")]) [] none]

theorem claim_C6_witness :
    ("node_modules" ∈ c6Settings.ignoreDirs.map lowerStr) ∧
    (∀ c ∈ (["C:", "scan"] : List String), lowerStr c ≠ "node_modules") ∧
    (∀ info ∈ _find_potential_installers c6Settings ["C:", "scan"] c6Tree,
      ∀ c ∈ info.path, lowerStr c ≠ "node_modules") :=
  ⟨by decide, by decide,
    claim_C6_node_modules_pruned c6Settings ["C:", "scan"] c6Tree
      (by decide) (by decide)⟩

-- --- C7: the three exclusion filters match per-field, not a concatenation ---

/-- The C7 spec sentence taken literally (refinement-comparison definition,
NOT translated from the code): each of the three exclusion lists is matched
case-insensitively against the lower-cased CONCATENATION of product name,
description, original name and company name, with the filename additionally
included for the uninstaller-hint list. -/
def specC7ConcatExcluded (s : DetectionSettings) (filenameLower : String)
    (properties : List (String × String)) : Bool :=
  let concat := lowerStr (pget properties "ProductName" "" ++
    pget properties "FileDescription" "" ++
    pget properties "OriginalFilename" "" ++ pget properties "CompanyName" "")
  (s.excludeByPropertySubstrings.map lowerStr).any (fun f => pyIn f concat) ||
    (s.excludeGenericNames.map lowerStr).any (fun f => pyIn f concat) ||
    (s.excludeUninstallerHints.map lowerStr).any
      (fun f => pyIn f concat || pyIn f filenameLower)

def c7Settings : DetectionSettings := { excludeByPropertySubstrings := ["ab"] }

def c7Props : List (String × String) :=
  [("ProductName", "aaa"), ("FileDescription", "bbb")]

/-- C7 counterexample: with property-substring filter `"ab"`, product name
`"aaa"` and description `"bbb"`, the claimed concatenation matching would
remove the file (`"ab"` occurs in `"aaabbb"`), but the code keeps it — each
filter term is matched against each property value individually. -/
theorem claim_C7_counterexample :
    specC7ConcatExcluded c7Settings "t.exe" c7Props = true ∧
    processFile c7Settings ["C:"] "t.exe" 10 (some c7Props) [] none =
      some { path := ["C:", "t.exe"], fileProperties := c7Props,
             installerType := ".exe" } := by
  exact ⟨by decide, by decide⟩

theorem ite3_none_iff {α : Type} (a b c : Bool) (x : α) :
    (if a = true then (none : Option α) else if b = true then none
      else if c = true then none else some x) = none ↔
    (a = true ∨ b = true ∨ c = true) := by
  cases a <;> cases b <;> cases c <;> simp

/-- C7 (amended): for every file surviving the extension, size and
metadata-read stages, the three exclusion filters are applied in order —
property-substring, generic-name, uninstaller-hint — each term matched
case-insensitively against each lower-cased property value (product name,
description, original name, company name) individually, with the filename
additionally included for the uninstaller-hint filter; a term matching any
single value removes the file. -/
theorem claim_C7_amended_per_field (s : DetectionSettings) (dir : List String)
    (n : String) (sz : Nat) (properties : List (String × String))
    (hext : lowerStr (fileSuffix n) = ".exe")
    (hsz : ¬ sz < s.minFileSizeBytes) (hne : properties ≠ []) :
    processFile s dir n sz (some properties) [] none = none ↔
      ((∃ f ∈ s.excludeByPropertySubstrings.map lowerStr,
          ∃ v ∈ propMatchValues properties, pyIn f v = true) ∨
       (∃ f ∈ s.excludeGenericNames.map lowerStr,
          ∃ v ∈ propMatchValues properties, pyIn f v = true) ∨
       (∃ f ∈ s.excludeUninstallerHints.map lowerStr,
          ∃ v ∈ propMatchValues properties ++ [lowerStr n], pyIn f v = true)) := by
  have hempty : properties.isEmpty = false := by
    cases properties with
    | nil => exact absurd rfl hne
    | cons kv rest => rfl
  have key : processFile s dir n sz (some properties) [] none =
      (if ((s.excludeByPropertySubstrings.map lowerStr).any
            (fun f => (propMatchValues properties).any (fun v => pyIn f v))) = true
       then none
       else if ((s.excludeGenericNames.map lowerStr).any
            (fun f => (propMatchValues properties).any (fun v => pyIn f v))) = true
       then none
       else if ((s.excludeUninstallerHints.map lowerStr).any
            (fun f => (propMatchValues properties ++ [lowerStr n]).any
              (fun v => pyIn f v))) = true
       then none
       else some { path := dir ++ [n], fileProperties := properties,
                   installerType := lowerStr (fileSuffix n) }) := by
    simp only [processFile, hext, hempty]
    norm_num [hsz]
    rw [if_neg (by decide : ¬(".exe" : String) = ".msi")]
  rw [key, ite3_none_iff]
  simp only [List.any_eq_true]

def c7uSettings : DetectionSettings := { excludeUninstallerHints := ["uninst"] }

theorem claim_C7_amended_witness :
    lowerStr (fileSuffix "x.exe") = ".exe" ∧
    ¬ (10 : Nat) < c7uSettings.minFileSizeBytes ∧
    ([("ProductName", "Uninstall Helper")] :
      List (String × String)) ≠ [] ∧
    processFile c7uSettings ["C:"] "x.exe" 10
      (some [("ProductName", "Uninstall Helper")]) [] none = none := by
  refine ⟨by decide, by decide, by decide, ?_⟩
  exact (claim_C7_amended_per_field c7uSettings ["C:"] "x.exe" 10
    [("ProductName", "Uninstall Helper")] (by decide) (by decide)
    (by decide)).mpr (Or.inr (Or.inr ⟨"uninst", by decide, "uninstall helper",
      by decide, by decide⟩))

-- --- C2: install verification only runs after a successful process exit ---

/-- The install-error field recorded for `k` after an action. -/
def errorAfter (st : InstallerState) (k : String) : Option (Option String) :=
  (alookup st.programStatus k).map ProgramStatus.installError

/-- The installed flag recorded for `k` after an action. -/
def installedAfter (st : InstallerState) (k : String) : Option (Option Bool) :=
  (alookup st.programStatus k).map ProgramStatus.isInstalled

def c2Cfg : ProgConfig :=
  { displayName := "P"
    identity := {}
    checkKeys := [{ path := some "SOFTWARE\\P", checkExistence := true }]
    installCommands := [(".exe", "{installer_path} /S")] }

def c2Info : FoundInstallerInfo :=
  { path := ["D:", "p.exe"], fileProperties := [("ProductName", "P")],
    installerType := ".exe" }

def c2Status : ProgramStatus :=
  { programKey := "p", displayName := "P", config := c2Cfg,
    foundInstaller := some c2Info, isInstalled := some false }

def c2St : InstallerState :=
  { programStatus := [("p", c2Status)], installationLog := [] }

/-- A registry in which every key exists: the post-install check confirms
presence. -/
def c2RegYes : RegEnv :=
  { keyExists := fun _ _ => true, readString := fun _ _ _ => none,
    subkeys := fun _ _ => [], reMatch := fun _ _ => false }

/-- A registry in which no key exists: the post-install check finds nothing. -/
def c2RegNo : RegEnv :=
  { keyExists := fun _ _ => false, readString := fun _ _ _ => none,
    subkeys := fun _ _ => [], reMatch := fun _ _ => false }

/-- Process boundary that reports exit code 1 (a process failure). -/
def c2EnvYes : SysEnv :=
  { reg := c2RegYes, msiInstalled := fun _ => false,
    proc := fun _ => .completed 1 "" "", now := 0 }

def c2EnvNo : SysEnv :=
  { reg := c2RegNo, msiInstalled := fun _ => false,
    proc := fun _ => .completed 1 "" "", now := 0 }

/-- C2 counterexample: with a failing install process, the independent
installed-state check is NOT re-run — even though that check would confirm
presence, the final status is not-installed with the generic process-failure
message, and the whole outcome is identical under a check that finds nothing.
This falsifies the claim that the check is re-run regardless of the process
outcome and decides the recorded result. -/
theorem claim_C2_counterexample :
    (check_registry c2EnvYes.reg c2Cfg.checkKeys).1 = true ∧
    (install_program c2EnvYes c2St "p" "auto").1 = false ∧
    installedAfter (install_program c2EnvYes c2St "p" "auto").2 "p" =
      some (some false) ∧
    errorAfter (install_program c2EnvYes c2St "p" "auto").2 "p" =
      some (some "Failed (Code 1)") ∧
    install_program c2EnvYes c2St "p" "auto" =
      install_program c2EnvNo c2St "p" "auto" := by
  exact ⟨by decide, by decide, by decide, by decide, by decide⟩

/-- C2 (amended): for an install action on a configured key (installer found,
not already installed, command template present), the independent
installed-state check is re-run only when the external process reports
success; then the reported success equals the check's verdict, and a
successful exit whose check finds nothing yields not-installed with the
distinct error `"Verification failed"`. When the process fails, the action
fails with the generic `"Failed (Code N)"` message and the outcome is
independent of the state-check environment (no verification is attempted). -/
theorem claim_C2_amended_verification (env : SysEnv) (st : InstallerState)
    (programKey mode : String) (status : ProgramStatus)
    (info : FoundInstallerInfo) (tmpl : String)
    (hs : alookup st.programStatus programKey = some status)
    (hf : status.foundInstaller = some info)
    (hni : status.isInstalled ≠ some true)
    (htm : cmdTemplateFor status info = some tmpl) :
    ((run_command (env.proc (installRunCmd info tmpl mode))).1 = true →
      ((install_program env st programKey mode).1 =
        (postInstallCheck env status info).1) ∧
      ((postInstallCheck env status info).1 = false →
        installedAfter (install_program env st programKey mode).2 programKey =
          some (some false) ∧
        errorAfter (install_program env st programKey mode).2 programKey =
          some (some "Verification failed"))) ∧
    ((run_command (env.proc (installRunCmd info tmpl mode))).1 = false →
      (install_program env st programKey mode).1 = false ∧
      errorAfter (install_program env st programKey mode).2 programKey =
        some (some ("Failed (Code " ++
          toString (run_command (env.proc (installRunCmd info tmpl mode))).2.1
          ++ ")")) ∧
      (∀ env' : SysEnv, env'.proc = env.proc → env'.now = env.now →
        install_program env' st programKey mode =
          install_program env st programKey mode)) := by
  have hbeq : (status.isInstalled == some true) = false :=
    beq_eq_false_iff_ne.mpr hni
  have unfoldKey : ∀ e : SysEnv,
      install_program e st programKey mode =
      (let r := run_command (e.proc (installRunCmd info tmpl mode))
       if r.1 then
         let chk := postInstallCheck e status info
         if chk.1 then
           let usesMsi := info.installerType == ".msi" &&
             truthyS (pget info.fileProperties "MSI_ProductCode" "")
           let ps := aupdate st.programStatus programKey (fun s =>
             { s with
               isInstalled := some true
               lastChecked := some e.now
               installError := none
               lastInstalledVersion :=
                 if usesMsi then s.lastInstalledVersion else chk.2 })
           (true, _record_installation e { st with programStatus := ps }
             programKey info)
         else
           let ps := aupdate st.programStatus programKey (fun s =>
             { s with
               isInstalled := some false
               lastChecked := some e.now
               installError := some "Verification failed" })
           (false, { st with programStatus := ps })
       else
         let r := run_command (e.proc (installRunCmd info tmpl mode))
         let ps := aupdate st.programStatus programKey (fun s =>
           { s with
             isInstalled := some false
             lastChecked := some e.now
             installError := some ("Failed (Code " ++ toString r.2.1 ++ ")") })
         (false, { st with programStatus := ps })) := by
    intro e
    simp only [install_program, hs, hf, hbeq, htm, Bool.false_eq_true,
      if_false]
  constructor
  · intro hr1
    rw [unfoldKey env]
    simp only [hr1, if_true]
    cases hchk : (postInstallCheck env status info).1 with
    | true => simp
    | false =>
      refine ⟨by simp [hchk], fun _ => ?_⟩
      constructor
      · simp [hchk, installedAfter, alookup_aupdate, hs]
      · simp [hchk, errorAfter, alookup_aupdate, hs]
  · intro hr1
    refine ⟨?_, ?_, ?_⟩
    · rw [unfoldKey env]
      simp [hr1]
    · rw [unfoldKey env]
      simp [hr1, errorAfter, alookup_aupdate, hs]
    · intro env' hproc hnow
      rw [unfoldKey env, unfoldKey env', hproc, hnow]
      simp [hr1]

def c2OkEnv : SysEnv :=
  { reg := c2RegNo, msiInstalled := fun _ => false,
    proc := fun _ => .completed 0 "" "", now := 0 }

theorem claim_C2_amended_witness :
    alookup c2St.programStatus "p" = some c2Status ∧
    c2Status.foundInstaller = some c2Info ∧
    c2Status.isInstalled ≠ some true ∧
    cmdTemplateFor c2Status c2Info = some "{installer_path} /S" ∧
    (run_command (c2OkEnv.proc
      (installRunCmd c2Info "{installer_path} /S" "auto"))).1 = true ∧
    (install_program c2OkEnv c2St "p" "auto").1 =
      (postInstallCheck c2OkEnv c2Status c2Info).1 ∧
    ((postInstallCheck c2OkEnv c2Status c2Info).1 = false →
      installedAfter (install_program c2OkEnv c2St "p" "auto").2 "p" =
        some (some false) ∧
      errorAfter (install_program c2OkEnv c2St "p" "auto").2 "p" =
        some (some "Verification failed")) := by
  have h := claim_C2_amended_verification c2OkEnv c2St "p" "auto" c2Status
    c2Info "{installer_path} /S" (by decide) (by decide) (by decide)
    (by decide)
  have h1 := h.1 (by decide)
  exact ⟨by decide, by decide, by decide, by decide, by decide, h1.1, h1.2⟩

-- --- C8: uninstall outcome vs ledger and status ---

/-- C8: on verified uninstall success the ledger entry for the key (if any)
is deleted and the in-memory status transitions to not-installed (with the
error cleared); on any failure — process failure or verification mismatch —
the ledger is left untouched and the failure reason is recorded on the
status. -/
theorem claim_C8_uninstall_ledger (env : SysEnv) (st : InstallerState)
    (key : String) :
    ((uninstall_program env st key).1 = true →
      alookup (uninstall_program env st key).2.installationLog key = none ∧
      (alookup st.programStatus key ≠ none →
        installedAfter (uninstall_program env st key).2 key =
          some (some false) ∧
        errorAfter (uninstall_program env st key).2 key = some none)) ∧
    ((uninstall_program env st key).1 = false →
      (uninstall_program env st key).2.installationLog =
        st.installationLog ∧
      (resolveUninstall env st key ≠ none →
        alookup st.programStatus key ≠ none →
        errorAfter (uninstall_program env st key).2 key =
          some (some "Uninstall verification failed") ∨
        ∃ c : Int, errorAfter (uninstall_program env st key).2 key =
          some (some ("Uninstall failed (Code " ++ toString c ++ ")")))) := by
  cases hres : resolveUninstall env st key with
  | none =>
    simp only [uninstall_program, hres]
    refine ⟨fun h => absurd h (by simp), fun _ => ⟨trivial, fun hr _ => ?_⟩⟩
    exact absurd rfl hr
  | some pair =>
    obtain ⟨cmdOrig, progName⟩ := pair
    rw [uninstall_program, hres]
    simp only []
    cases hr1 : (run_command (env.proc ("start /wait \"\" " ++
        _add_silent_flags_to_command
        (if (pyIn "msiexec" (lowerStr cmdOrig) &&
            (pyIn "/x" (lowerStr cmdOrig) ||
             pyIn "/uninstall" (lowerStr cmdOrig))) = true then
          match findGuid cmdOrig with
          | some g => (some g, "msiexec /x " ++ g)
          | none => ((none : Option String), cmdOrig)
        else (none, cmdOrig)).2))).1 with
    | true =>
      simp only [hr1, if_true]
      set pc := (if (pyIn "msiexec" (lowerStr cmdOrig) &&
          (pyIn "/x" (lowerStr cmdOrig) ||
           pyIn "/uninstall" (lowerStr cmdOrig))) = true then
        match findGuid cmdOrig with
        | some g => (some g, "msiexec /x " ++ g)
        | none => ((none : Option String), cmdOrig)
        else (none, cmdOrig)).1 with hpc
      cases hver : (match pc with
        | some pc => !(env.msiInstalled pc)
        | none =>
          match alookup st.programStatus key with
          | some status => !(check_registry env.reg status.config.checkKeys).1
          | none => true) with
      | true =>
        simp only [hver, if_true]
        refine ⟨fun _ => ⟨?_, fun hk => ⟨?_, ?_⟩⟩, fun h => absurd h (by simp)⟩
        · exact alookup_aerase st.installationLog key
        · cases hs0 : alookup st.programStatus key with
          | none => exact absurd hs0 hk
          | some s0 => simp [installedAfter, alookup_aupdate, hs0]
        · cases hs0 : alookup st.programStatus key with
          | none => exact absurd hs0 hk
          | some s0 => simp [errorAfter, alookup_aupdate, hs0]
      | false =>
        simp only [hver, if_false, Bool.false_eq_true]
        refine ⟨fun h => absurd h (by simp), fun _ => ⟨trivial, fun _ hk => ?_⟩⟩
        left
        cases hs0 : alookup st.programStatus key with
        | none => exact absurd hs0 hk
        | some s0 => simp [errorAfter, alookup_aupdate, hs0]
    | false =>
      simp only [hr1, if_false, Bool.false_eq_true]
      refine ⟨fun h => absurd h (by simp), fun _ => ⟨trivial, fun _ hk => ?_⟩⟩
      right
      refine ⟨(run_command (env.proc ("start /wait \"\" " ++
        _add_silent_flags_to_command
        (if (pyIn "msiexec" (lowerStr cmdOrig) &&
            (pyIn "/x" (lowerStr cmdOrig) ||
             pyIn "/uninstall" (lowerStr cmdOrig))) = true then
          match findGuid cmdOrig with
          | some g => (some g, "msiexec /x " ++ g)
          | none => ((none : Option String), cmdOrig)
        else (none, cmdOrig)).2))).2.1, ?_⟩
      cases hs0 : alookup st.programStatus key with
      | none => exact absurd hs0 hk
      | some s0 => simp [errorAfter, alookup_aupdate, hs0]

def c8Entry : LogEntry :=
  { programKey := some "k", name := some "K",
    uninstallString := some "D:\\unins.exe" }

def c8St : InstallerState :=
  { programStatus := [("k", c10Status)], installationLog := [("k", c8Entry)] }

def c8Env : SysEnv :=
  { reg := c2RegNo, msiInstalled := fun _ => false,
    proc := fun _ => .completed 0 "" "", now := 3 }

theorem claim_C8_witness :
    (uninstall_program c8Env c8St "k").1 = true ∧
    alookup (uninstall_program c8Env c8St "k").2.installationLog "k" = none ∧
    installedAfter (uninstall_program c8Env c8St "k").2 "k" =
      some (some false) ∧
    errorAfter (uninstall_program c8Env c8St "k").2 "k" = some none := by
  have h := (claim_C8_uninstall_ledger c8Env c8St "k").1 (by decide)
  have h2 := h.2 (by decide)
  exact ⟨by decide, h.1, h2.1, h2.2⟩

end ProgramInstall
